import Mathlib

/-!
Verification of the PQC auto-selector orchestrator (`server.js`).

The development shallowly embeds the orchestration logic of the Fastify
service: the JavaScript primitive values that flow through the selector
(`undefined`, `null`, booleans, numbers, strings) are modelled by `JSValue`;
finite JS numbers are modelled exactly by rationals (every finite IEEE-754
double is a rational and the code performs no arithmetic that rounds, only
comparisons and `Math.round`), with `NaN` and the infinities as separate
constructors.  Network traffic is abstracted by an environment record `Env`
holding the response of each outbound call, and the handler additionally
returns the list of network events it performed, so temporal claims can be
stated about the trace.
-/

namespace AutoSelector

/-- Finite-or-special JS number: `NaN`, the two infinities, or a finite value
(represented exactly as a rational). -/
inductive JSNum where
  | nan
  | inf
  | ninf
  | fin (q : ℚ)
deriving DecidableEq, Repr

/-- Primitive JavaScript value, as delivered by `JSON.parse` or absent request
fields (`undefined`).  Objects and arrays do not occur in the positions the
claims quantify over. -/
inductive JSValue where
  | undef
  | nullv
  | boolv (b : Bool)
  | num (n : JSNum)
  | str (s : String)
deriving DecidableEq, Repr

/-- Whitespace trim (JS `String.prototype.trim`), written on the character
list so that it evaluates inside the kernel. -/
def jsTrim (s : String) : String :=
  ⟨((s.data.dropWhile Char.isWhitespace).reverse.dropWhile Char.isWhitespace).reverse⟩

/-- ASCII lowercasing (JS `String.prototype.toLowerCase` on the ASCII range),
written on the character list so that it evaluates inside the kernel. -/
def strLower (s : String) : String :=
  ⟨s.data.map Char.toLower⟩

/-- Digits-to-number accumulator for decimal parsing. -/
def natOfDigits (cs : List Char) : ℕ :=
  cs.foldl (fun a c => a * 10 + (c.toNat - 48)) 0

/-- Unsigned decimal literal (`123`, `123.45`, `.5`, `5.`); anything else is
rejected.  This models the decimal fragment of JS `Number(string)`; the hex,
binary and exponent forms are not exercised by the code or the claims. -/
def parseUnsignedDec (cs : List Char) : Option ℚ :=
  let intPart := cs.takeWhile Char.isDigit
  let rest := cs.dropWhile Char.isDigit
  match rest with
  | [] => if intPart.isEmpty then none else some ((natOfDigits intPart : ℚ))
  | '.' :: frac =>
    if frac.all Char.isDigit ∧ ¬(intPart.isEmpty ∧ frac.isEmpty) then
      some ((natOfDigits intPart : ℚ) + (natOfDigits frac : ℚ) / ((10 : ℚ) ^ frac.length))
    else none
  | _ => none

/-- JS `Number(string)` coercion (decimal fragment): trimmed, empty string is
`0`, signed decimal literals, `Infinity` forms; otherwise `NaN`. -/
def jsStringToNumber (s : String) : JSNum :=
  let t := jsTrim s
  if t = "" then .fin 0
  else if t = "Infinity" ∨ t = "+Infinity" then .inf
  else if t = "-Infinity" then .ninf
  else
    match t.toList with
    | '+' :: rest =>
      match parseUnsignedDec rest with
      | some q => .fin q
      | none => .nan
    | '-' :: rest =>
      match parseUnsignedDec rest with
      | some q => .fin (-q)
      | none => .nan
    | cs =>
      match parseUnsignedDec cs with
      | some q => .fin q
      | none => .nan

/-- JS `ToNumber` on primitive values, as used by `isNaN` and the relational
operators when one operand is a number. -/
def jsToNumber : JSValue → JSNum
  | .undef => .nan
  | .nullv => .fin 0
  | .boolv b => .fin (if b then 1 else 0)
  | .num n => n
  | .str s => jsStringToNumber s

/-- JS `<` on numbers (`NaN` compares false to everything). -/
def JSNum.ltb : JSNum → JSNum → Bool
  | .nan, _ => false
  | _, .nan => false
  | .ninf, .ninf => false
  | .ninf, _ => true
  | _, .ninf => false
  | .inf, _ => false
  | _, .inf => true
  | .fin a, .fin b => decide (a < b)

/-- JS `<=` on numbers (`NaN` compares false to everything). -/
def JSNum.leb : JSNum → JSNum → Bool
  | .nan, _ => false
  | _, .nan => false
  | a, b => !(JSNum.ltb b a)

/-- Global `isNaN(v)`: coerce, then test for `NaN`. -/
def jsIsNaN (v : JSValue) : Bool :=
  jsToNumber v = .nan

/-- JS comparison `v > c` against a numeric literal. -/
def jsGtNum (v : JSValue) (c : ℚ) : Bool :=
  JSNum.ltb (.fin c) (jsToNumber v)

/-- JS comparison `v <= c` against a numeric literal. -/
def jsLeNum (v : JSValue) (c : ℚ) : Bool :=
  JSNum.leb (jsToNumber v) (.fin c)

/-- JS truthiness of a primitive value. -/
def truthy : JSValue → Bool
  | .undef => false
  | .nullv => false
  | .boolv b => b
  | .num .nan => false
  | .num .inf => true
  | .num .ninf => true
  | .num (.fin q) => decide (q ≠ 0)
  | .str s => decide (s ≠ "")

/-- JS `a || b` on values: `a` when truthy, else `b`. -/
def jsOr (a b : JSValue) : JSValue :=
  if truthy a then a else b

/-- JS `a ?? b` (nullish coalescing): `b` when `a` is `undefined` or `null`. -/
def jsNullish (a b : JSValue) : JSValue :=
  match a with
  | .undef => b
  | .nullv => b
  | v => v

/-- JS strict equality `===` on primitive values: no coercion, and `NaN` is
not equal to anything (including itself). -/
def jsStrictEq (a b : JSValue) : Bool :=
  if a = .num .nan ∨ b = .num .nan then false else a = b

/-- JS `ToString` on primitive values, as used by template literals.  Exact on
every value the handler stringifies (strings, booleans, `null`, `undefined`,
integers); the decimal rendering of non-integral rationals abbreviates the JS
double-formatting algorithm and is exercised by no theorem. -/
def jsToString : JSValue → String
  | .undef => "undefined"
  | .nullv => "null"
  | .boolv b => if b then "true" else "false"
  | .num .nan => "NaN"
  | .num .inf => "Infinity"
  | .num .ninf => "-Infinity"
  | .num (.fin q) => if q.den = 1 then toString q.num else toString q
  | .str s => s

/-- JS `v?.length ?? 0` for a primitive value: strings have a length, every
other primitive yields `undefined` and falls back to `0`. -/
def jsLengthOrZero : JSValue → ℕ
  | .str s => s.length
  | _ => 0

/-- The two signature schemes the policy chooses between. -/
inductive Scheme where
  | dilithium
  | falcon
deriving DecidableEq, Repr

/-- String name of a scheme, as interpolated by the source. -/
def Scheme.name : Scheme → String
  | .dilithium => "dilithium"
  | .falcon => "falcon"

/-- Payload-size heuristic of `selectSigScheme`, with the nesting of the source:
the outer guard is `!isNaN(payloadHintBytes) && payloadHintBytes > 0`, the
inner one `payloadHintBytes <= 1024 && fReach`. -/
def payloadHeuristic (payloadHintBytes : JSValue) (fReach : Bool) : Bool :=
  if !(jsIsNaN payloadHintBytes) && jsGtNum payloadHintBytes 0 then
    jsLeNum payloadHintBytes 1024 && fReach
  else false

/-- Policy engine `selectSigScheme` of `server.js`: reachability of the two
signature backends is passed in as the outcome of the two concurrent
`firstReachable` probes.  Rules in source order: explicit preference when
reachable, payload-size heuristic, health default, else failure. -/
def selectSigScheme (payloadHintBytes policyPreferredSig : JSValue)
    (dReach fReach : Bool) : Except String Scheme :=
  if policyPreferredSig = .str "falcon" ∧ fReach then .ok .falcon
  else if policyPreferredSig = .str "dilithium" ∧ dReach then .ok .dilithium
  else if payloadHeuristic payloadHintBytes fReach then .ok .falcon
  else if dReach then .ok .dilithium
  else if fReach then .ok .falcon
  else .error "No signature service reachable"

/-- Which backend, if any, an explicit preference names (spec-side notion for
the claim about the decision order). -/
def namesBackend (v : JSValue) : Option Scheme :=
  if v = .str "dilithium" then some .dilithium
  else if v = .str "falcon" then some .falcon
  else none

/-- Reachability of a scheme given the two probe outcomes. -/
def schemeReachable (dReach fReach : Bool) : Scheme → Bool
  | .dilithium => dReach
  | .falcon => fReach

/-- Spec-side payload condition: the hint coerces to a finite number that is
greater than 0 and at most 1024. -/
def payloadTightSpec (hint : JSValue) : Bool :=
  match jsToNumber hint with
  | .fin q => decide (0 < q) && decide (q ≤ 1024)
  | _ => false

/-- Decision order as stated by the specification, steps 3 to 5: payload
heuristic, then Dilithium-then-Falcon health default, else failure. -/
def selectFallbackSpec (hint : JSValue) (dReach fReach : Bool) : Except String Scheme :=
  if payloadTightSpec hint && fReach then .ok .falcon
  else if dReach then .ok .dilithium
  else if fReach then .ok .falcon
  else .error "No signature service reachable"

/-- Decision order as stated by the specification: an explicit preference for
a reachable backend wins, an unreachable preference is silently ignored, then
the fallback rules apply. -/
def selectSchemeSpec (hint pref : JSValue) (dReach fReach : Bool) : Except String Scheme :=
  match namesBackend pref with
  | some s => if schemeReachable dReach fReach s then .ok s else selectFallbackSpec hint dReach fReach
  | none => selectFallbackSpec hint dReach fReach

/-- Character class `[1-5]` of the rotation-algorithm regexes. -/
def isDigit15 (c : Char) : Bool :=
  c = '1' ∨ c = '2' ∨ c = '3' ∨ c = '4' ∨ c = '5'

/-- Character class `[-_ ]` separating scheme and level in a hint string. -/
def isSep (c : Char) : Bool :=
  c = '-' ∨ c = '_' ∨ c = ' '

/-- Head of the input when it is a supported level digit. -/
def digit15Head : List Char → Option Char
  | c :: _ => if isDigit15 c then some c else none
  | [] => none

/-- Regex fragment `l?([1-5])` with greedy backtracking as in the regex engine: try to
consume an `l` first, else match the digit directly. -/
def matchLDigit : List Char → Option Char
  | 'l' :: rest => digit15Head rest
  | cs => digit15Head cs

/-- Regex fragment `[-_ ]?l?([1-5])`. -/
def matchTail : List Char → Option Char
  | c :: rest => if isSep c then matchLDigit rest else matchLDigit (c :: rest)
  | [] => none

/-- Search for `(falcon|dilithium)[-_ ]?l?([1-5])` anywhere in the input, at
the leftmost position that matches, trying `falcon` before `dilithium` at each
position as the alternation does. -/
def matchExplicit : List Char → Option (String × Char)
  | [] => none
  | c :: rest =>
    match (if ("falcon".toList).isPrefixOf (c :: rest) then matchTail ((c :: rest).drop 6) else none) with
    | some d => some ("falcon", d)
    | none =>
      match (if ("dilithium".toList).isPrefixOf (c :: rest) then matchTail ((c :: rest).drop 9) else none) with
      | some d => some ("dilithium", d)
      | none => matchExplicit rest

/-- Search for `([1-5])`: the first supported level digit in the input. -/
def firstDigit15 : List Char → Option Char
  | [] => none
  | c :: rest => if isDigit15 c then some c else firstDigit15 rest

/-- JS `Math.round`: round half toward positive infinity. -/
def jsRound (q : ℚ) : ℤ :=
  (q + 1 / 2).floor

/-- Scheme-specific default rotation algorithm. -/
def defaultAlg (scheme : Scheme) : String :=
  if scheme = .dilithium then "dilithium-l3" else "falcon-l5"

/-- Function `deriveRotationAlgorithm(scheme, levelHint)` of `server.js`: a
finite numeric hint is rounded and clamped to 1..5; a string hint is first
searched for an explicit scheme-and-level, then for a bare level digit; any
other hint yields the scheme default. -/
def deriveRotationAlgorithm (scheme : Scheme) (levelHint : JSValue) : String :=
  match levelHint with
  | .num (.fin q) => scheme.name ++ "-l" ++ toString (min 5 (max 1 (jsRound q)))
  | .str s =>
    let normalized := strLower (jsTrim s)
    match matchExplicit normalized.toList with
    | some (base, d) => base ++ "-l" ++ String.singleton d
    | none =>
      match firstDigit15 normalized.toList with
      | some d => scheme.name ++ "-l" ++ String.singleton d
      | none => defaultAlg scheme
  | _ => defaultAlg scheme

/-- Contiguous-sublist test on character lists. -/
def listContainsSub : List Char → List Char → Bool
  | s, pat =>
    match s with
    | [] => pat.isEmpty
    | _ :: rest => pat.isPrefixOf s || listContainsSub rest pat

/-- Substring test, as JS `String.prototype.includes`. -/
def strContains (s pat : String) : Bool :=
  listContainsSub s.toList pat.toList

/-- Function `isSignatureVerificationError(err)` of `server.js`: lowercase the
message and look for verification-related wording. -/
def isSignatureVerificationError (msg : String) : Bool :=
  let m := strLower msg
  strContains m "signature_verification_failed"
    || strContains m "signature verification failed"
    || strContains m "signature mismatch"
    || strContains m "invalid signature"

/-- Strategy that produced a signing context. -/
inductive StrategySource where
  | rotation
  | direct
  | bootstrap
deriving DecidableEq, Repr

/-- Signing context assembled by one strategy closure. -/
structure SigCtx where
  source : StrategySource
  signature : JSValue
  signerPublicKey : JSValue
  signerLevel : JSValue
  signerKid : JSValue
  kyberPublicKey : JSValue
  kyberSecretKey : JSValue
  isCompressed : JSValue
deriving DecidableEq, Repr

/-- Completeness check of the strategy loop: all four critical fields truthy
(`!ctx?.signature || !ctx.signerPublicKey || !ctx.kyberPublicKey ||
!ctx.kyberSecretKey` causes a `continue`). -/
def ctxComplete (ctx : SigCtx) : Bool :=
  truthy ctx.signature && truthy ctx.signerPublicKey
    && truthy ctx.kyberPublicKey && truthy ctx.kyberSecretKey

/-- Downstream JSON response: a lookup from field name to primitive value,
missing fields reading as `undefined`. -/
def Resp : Type := String → JSValue

/-- Response holding the given fields, every other field `undefined`. -/
def respOf (l : List (String × JSValue)) : Resp :=
  fun k => (((l.find? (fun p => p.1 = k)).map Prod.snd).getD .undef)

/-- Payload of the `encapsulate-verified` call, assembled from a context. -/
structure VerifyPayload where
  kyberPublicKey : JSValue
  signature : JSValue
  signatureBase64 : JSValue
  signatureB64 : JSValue
  signerPublicKey : JSValue
  falconSignerPublicKey : JSValue
  dilithiumSignerPublicKey : JSValue
  level : JSValue
  isCompressed : JSValue
  signerKid : JSValue
  kid : JSValue
  keyId : JSValue
deriving DecidableEq, Repr

/-- Build the `encapsulate-verified` payload exactly as the loop body does:
the KEM public key and signature come from the context, the scheme-specific
signer-key aliases are set for the chosen scheme only, and the kid aliases are
only attached when the context carries a truthy kid. -/
def mkVerifyPayload (scheme : Scheme) (baseSignerLevel : JSValue) (ctx : SigCtx) : VerifyPayload :=
  { kyberPublicKey := ctx.kyberPublicKey
    signature := ctx.signature
    signatureBase64 := ctx.signature
    signatureB64 := ctx.signature
    signerPublicKey := ctx.signerPublicKey
    falconSignerPublicKey := if scheme = .falcon then ctx.signerPublicKey else .undef
    dilithiumSignerPublicKey := if scheme = .dilithium then ctx.signerPublicKey else .undef
    level := jsNullish ctx.signerLevel baseSignerLevel
    isCompressed := ctx.isCompressed
    signerKid := if truthy ctx.signerKid then ctx.signerKid else .undef
    kid := if truthy ctx.signerKid then ctx.signerKid else .undef
    keyId := if truthy ctx.signerKid then ctx.signerKid else .undef }

/-- Network events performed by a request, in order.  Probe events stand for
the `firstReachable` sweeps over the candidate addresses of one backend; the
remaining events are the API calls.  `sigEncapVerify` records the context that
was submitted and `kemDecapsulate` the arguments of the decapsulation call. -/
inductive NetEvent where
  | probeDilithium
  | probeFalcon
  | probeKyber
  | probeRotation
  | kemGenerate
  | sigSignerInfo (s : Scheme)
  | rotCurrent
  | rotRotate
  | rotSign
  | sigSign (s : Scheme)
  | sigBootstrap (s : Scheme)
  | sigEncapVerify (s : Scheme) (ctx : SigCtx)
  | kemDecapsulate (secretKey ciphertext : JSValue)
deriving DecidableEq, Repr

/-- Environment: the outcome each outbound network interaction would have
during this request.  An `Except.error` is a thrown `postJSON`/`getJSON`
failure carrying the error message; a `none` base is an unreachable
backend. -/
structure Env where
  dReach : Bool
  fReach : Bool
  kyberBase : Option String
  dilithiumBase : Option String
  falconBase : Option String
  rotationBase : Option String
  genKeypair : Except String Resp
  signerInfo : Except String Resp
  rotCurrent1 : Except String Resp
  rotRotate : Except String Resp
  rotCurrent2 : Except String Resp
  rotSign : Except String Resp
  directSign : Except String Resp
  bootstrap : Except String Resp
  encapVerify : VerifyPayload → Except String Resp
  decapsulate : JSValue → JSValue → Except String Resp

/-- Request body of `/select/ake` (missing fields are `undefined`). -/
structure Body where
  payloadHintBytes : JSValue
  policyPreferredSig : JSValue
  level : JSValue

/-- First element of a candidate list, `undefined` when empty (JS `xs[0]`). -/
def headOrUndef : List JSValue → JSValue
  | [] => .undef
  | v :: _ => v

/-- Filter of the rotation public-key candidates:
`typeof v === 'string' && v.length > 16`. -/
def isLongString : JSValue → Bool
  | .str s => decide (16 < s.length)
  | _ => false

/-- Test for `typeof v === 'boolean'`. -/
def isBoolVal : JSValue → Bool
  | .boolv _ => true
  | _ => false

/-- Tail of the rotation strategy after a current key has been obtained: call
the rotator sign endpoint, pick the first truthy signature alias, and assemble the
context over the initial KEM keypair of the orchestrator. -/
def rotationAfterCurrent (env : Env) (evs : List NetEvent) (current : Resp)
    (baseSignerLevel baseServiceSignerPublicKey baseSignerKid initialPk initialSk : JSValue) :
    List NetEvent × Except String SigCtx :=
  match env.rotSign with
  | .error e => (evs ++ [.rotSign], .error e)
  | .ok signResp =>
    let signature := jsOr (signResp "signatureB64") (jsOr (signResp "signatureBase64")
      (jsOr (signResp "signature") (signResp "sig")))
    if truthy signature then
      let rotPubCandidates := ([signResp "signerPublicKey", signResp "publicKey",
        current "publicKey", current "publicKeyB64", current "publicKeyBase64",
        current "signerPublicKey", current "falconPublicKey", current "dilithiumPublicKey",
        current "pub", current "pk"]).filter isLongString
      (evs ++ [.rotSign], .ok
        { source := .rotation
          signature := signature
          signerPublicKey := jsOr (headOrUndef rotPubCandidates) baseServiceSignerPublicKey
          signerLevel := baseSignerLevel
          signerKid := jsOr (signResp "kid") (jsOr (signResp "keyId")
            (jsOr (current "kid") (jsOr (current "keyId") baseSignerKid)))
          kyberPublicKey := initialPk
          kyberSecretKey := initialSk
          isCompressed := if isBoolVal (signResp "isCompressed") then signResp "isCompressed" else .undef })
    else (evs ++ [.rotSign], .error "rotation signing produced no signature")

/-- Rotation-backed strategy closure: query the current key, rotating and
re-querying when absent, then sign via the rotator.  Any thrown step fails the
whole strategy. -/
def rotationStrategy (env : Env)
    (baseSignerLevel baseServiceSignerPublicKey baseSignerKid initialPk initialSk : JSValue) :
    List NetEvent × Except String SigCtx :=
  match env.rotCurrent1 with
  | .ok current =>
    rotationAfterCurrent env [.rotCurrent] current
      baseSignerLevel baseServiceSignerPublicKey baseSignerKid initialPk initialSk
  | .error _ =>
    match env.rotRotate with
    | .error e => ([.rotCurrent, .rotRotate], .error e)
    | .ok _ =>
      match env.rotCurrent2 with
      | .error e => ([.rotCurrent, .rotRotate, .rotCurrent], .error e)
      | .ok current =>
        rotationAfterCurrent env [.rotCurrent, .rotRotate, .rotCurrent] current
          baseSignerLevel baseServiceSignerPublicKey baseSignerKid initialPk initialSk

/-- Direct-signing strategy closure: post to the sign endpoint of the scheme, take
the first truthy signature alias, and assemble the context over the initial
KEM keypair. -/
def directStrategy (env : Env) (scheme : Scheme)
    (baseSignerLevel baseServiceSignerPublicKey baseSignerKid initialPk initialSk : JSValue) :
    List NetEvent × Except String SigCtx :=
  match env.directSign with
  | .error e => ([.sigSign scheme], .error e)
  | .ok signResp =>
    let signature := jsOr (signResp "signature") (jsOr (signResp "signatureBase64")
      (jsOr (signResp "sig") (signResp "signatureB64")))
    if truthy signature then
      ([.sigSign scheme], .ok
        { source := .direct
          signature := signature
          signerPublicKey := jsOr (signResp "signerPublicKey") (jsOr (signResp "falconSignerPublicKey")
            (jsOr (signResp "dilithiumSignerPublicKey") (jsOr (signResp "publicKey")
              baseServiceSignerPublicKey)))
          signerLevel := jsOr (signResp "level") baseSignerLevel
          signerKid := jsOr (signResp "kid") (jsOr (signResp "keyId") baseSignerKid)
          kyberPublicKey := initialPk
          kyberSecretKey := initialSk
          isCompressed := if isBoolVal (signResp "isCompressed") then signResp "isCompressed" else .undef })
    else ([.sigSign scheme], .error "direct signing produced no signature")

/-- Bootstrap strategy closure: one combined call; when the response carries a
KEM keypair it replaces the initial keypair of the orchestrator field by field
(`bootstrap.kyberPublicKey || initialKyberPublicKey` and likewise for the
secret key). -/
def bootstrapStrategy (env : Env) (scheme : Scheme)
    (baseSignerLevel baseServiceSignerPublicKey baseSignerKid initialPk initialSk : JSValue) :
    List NetEvent × Except String SigCtx :=
  match env.bootstrap with
  | .error e => ([.sigBootstrap scheme], .error e)
  | .ok b =>
    let signature := jsOr (b "signature") (jsOr (b "signatureBase64")
      (jsOr (b "sig") (b "signatureB64")))
    if truthy signature then
      ([.sigBootstrap scheme], .ok
        { source := .bootstrap
          signature := signature
          signerPublicKey := jsOr (b "signerPublicKey") (jsOr (b "falconSignerPublicKey")
            (jsOr (b "dilithiumSignerPublicKey") (jsOr (b "publicKey")
              baseServiceSignerPublicKey)))
          signerLevel := jsOr (b "level") baseSignerLevel
          signerKid := jsOr (b "kid") (jsOr (b "keyId") baseSignerKid)
          kyberPublicKey := jsOr (b "kyberPublicKey") initialPk
          kyberSecretKey := jsOr (b "kyberSecretKey") initialSk
          isCompressed := if isBoolVal (b "isCompressed") then b "isCompressed" else .undef })
    else ([.sigBootstrap scheme], .error "bootstrap produced no signature")

/-- Ordered strategy list: the rotation strategy only when a rotation backend
is reachable, then direct signing, then bootstrap. -/
def strategyList (env : Env) (scheme : Scheme)
    (baseSignerLevel baseServiceSignerPublicKey baseSignerKid initialPk initialSk : JSValue) :
    List (List NetEvent × Except String SigCtx) :=
  (if env.rotationBase.isSome then
    [rotationStrategy env baseSignerLevel baseServiceSignerPublicKey baseSignerKid initialPk initialSk]
  else []) ++
  [directStrategy env scheme baseSignerLevel baseServiceSignerPublicKey baseSignerKid initialPk initialSk,
   bootstrapStrategy env scheme baseSignerLevel baseServiceSignerPublicKey baseSignerKid initialPk initialSk]

/-- Outcome of the strategy loop. -/
inductive ChainOutcome where
  | success (encap : Resp) (ctx : SigCtx)
  | fatal (err : String)
  | exhausted (lastSigError : Option String)

/-- Strategy loop of the `/select/ake` handler.  Each attempt carries the
events its closure performed and its context result.  A context-construction
failure skips to the next attempt; an incomplete context is discarded; a
verification-specific failure of the downstream call records the error and
advances; any other failure of that call is fatal.  The function also returns
the list of contexts that were submitted downstream. -/
def runChain (scheme : Scheme) (verify : SigCtx → Except String Resp) :
    List (List NetEvent × Except String SigCtx) → Option String →
    List NetEvent × List SigCtx × ChainOutcome
  | [], last => ([], [], .exhausted last)
  | attempt :: rest, last =>
    match attempt.2 with
    | .error _ =>
      (attempt.1 ++ (runChain scheme verify rest last).1, (runChain scheme verify rest last).2)
    | .ok ctx =>
      if ctxComplete ctx then
        match verify ctx with
        | .ok encap => (attempt.1 ++ [.sigEncapVerify scheme ctx], [ctx], .success encap ctx)
        | .error err =>
          if isSignatureVerificationError err then
            (attempt.1 ++ [.sigEncapVerify scheme ctx] ++ (runChain scheme verify rest (some err)).1,
             ctx :: (runChain scheme verify rest (some err)).2.1,
             (runChain scheme verify rest (some err)).2.2)
          else
            (attempt.1 ++ [.sigEncapVerify scheme ctx], [ctx], .fatal err)
      else
        (attempt.1 ++ (runChain scheme verify rest last).1, (runChain scheme verify rest last).2)

/-- Result record of a successful `/select/ake` round trip. -/
structure AkeResult where
  status : String
  schemeSelected : Scheme
  reason : String
  signerLevel : JSValue
  signerKid : JSValue
  ciphertextLen : ℕ
  sharedSecretMatch : Bool
deriving DecidableEq, Repr

/-- Reason string attached to a result, computed from the raw request fields:
`policyPreferredSig ? policy:<v> : (payloadHintBytes && payloadHintBytes <=
1024) ? payload_tight : default_or_health`. -/
def akeReason (payloadHintBytes policyPreferredSig : JSValue) : String :=
  if truthy policyPreferredSig then "policy:" ++ jsToString policyPreferredSig
  else if truthy payloadHintBytes && jsLeNum payloadHintBytes 1024 then "payload_tight"
  else "default_or_health"

/-- Result assembly of the handler success path. -/
def mkAkeResult (scheme : Scheme) (body : Body) (baseSignerLevel baseSignerKid : JSValue)
    (ctx : SigCtx) (encap decap : Resp) : AkeResult :=
  let same := jsStrictEq (encap "sharedSecret") (decap "sharedSecret")
  { status := if same then "ok" else "mismatch"
    schemeSelected := scheme
    reason := akeReason body.payloadHintBytes body.policyPreferredSig
    signerLevel := jsNullish ctx.signerLevel baseSignerLevel
    signerKid := jsNullish ctx.signerKid baseSignerKid
    ciphertextLen := jsLengthOrZero (encap "ciphertext")
    sharedSecretMatch := same }

/-- Response of the handler: the success shape or the 502 error shape. -/
inductive HandlerResult where
  | ok (result : AkeResult)
  | err502 (detail : String)
deriving DecidableEq, Repr

/-- Status field of a success-shaped response. -/
def HandlerResult.statusOf : HandlerResult → Option String
  | .ok r => some r.status
  | .err502 _ => none

/-- Reason field of a success-shaped response. -/
def HandlerResult.reasonOf : HandlerResult → Option String
  | .ok r => some r.reason
  | .err502 _ => none

/-- Selected scheme of a success-shaped response. -/
def HandlerResult.schemeOf : HandlerResult → Option Scheme
  | .ok r => some r.schemeSelected
  | .err502 _ => none

/-- Resolution-time `firstReachable` for the chosen signature backend. -/
def sigBaseFor (env : Env) : Scheme → Option String
  | .dilithium => env.dilithiumBase
  | .falcon => env.falconBase

/-- Probe event of the resolution-time sweep for the chosen backend. -/
def probeEventFor : Scheme → NetEvent
  | .dilithium => .probeDilithium
  | .falcon => .probeFalcon

/-- Handler tail after keypair generation and signer metadata succeeded:
derive the fallback signer fields, probe the rotation backend, run the
strategy chain against the verify-and-encapsulate call, then decapsulate with
the secret key of the context that passed verification and assemble the
result. -/
def akeWithSigner (env : Env) (body : Body) (scheme : Scheme)
    (initialPk initialSk : JSValue) (si : Resp) : List NetEvent × HandlerResult :=
  let baseServiceSignerPublicKey := jsOr (si "signerPublicKey") (jsOr (si "falconSignerPublicKey")
    (jsOr (si "dilithiumSignerPublicKey") (si "publicKey")))
  let baseSignerLevel := jsNullish body.level (jsNullish (si "level")
    (jsNullish (si "alg") (si "algorithm")))
  let baseSignerKid := jsOr (si "kid") (si "keyId")
  match runChain scheme (fun ctx => env.encapVerify (mkVerifyPayload scheme baseSignerLevel ctx))
      (strategyList env scheme baseSignerLevel baseServiceSignerPublicKey baseSignerKid initialPk initialSk)
      none with
  | (chainEvs, _, .fatal e) => (NetEvent.probeRotation :: chainEvs, .err502 e)
  | (chainEvs, _, .exhausted last) =>
    (NetEvent.probeRotation :: chainEvs, .err502 (last.getD "No signature strategy succeeded"))
  | (chainEvs, _, .success encap ctx) =>
    match env.decapsulate ctx.kyberSecretKey (encap "ciphertext") with
    | .error e =>
      (NetEvent.probeRotation :: chainEvs ++ [.kemDecapsulate ctx.kyberSecretKey (encap "ciphertext")],
       .err502 e)
    | .ok decap =>
      (NetEvent.probeRotation :: chainEvs ++ [.kemDecapsulate ctx.kyberSecretKey (encap "ciphertext")],
       .ok (mkAkeResult scheme body baseSignerLevel baseSignerKid ctx encap decap))

/-- Handler middle: generate the KEM keypair and fetch signer metadata; either
failure is fatal for the request. -/
def akeResolved (env : Env) (body : Body) (scheme : Scheme) : List NetEvent × HandlerResult :=
  match env.genKeypair with
  | .error e => ([.kemGenerate], .err502 e)
  | .ok kp =>
    match env.signerInfo with
    | .error e => ([.kemGenerate, .sigSignerInfo scheme], .err502 e)
    | .ok si =>
      let r := akeWithSigner env body scheme (kp "publicKey") (kp "secretKey") si
      (NetEvent.kemGenerate :: NetEvent.sigSignerInfo scheme :: r.1, r.2)

/-- Handler for `POST /select/ake`: select a scheme (probing both signature
backends), resolve the KEM base then the chosen signature base (failing fast
when unreachable), and continue with the signing pipeline.  Every thrown error
is caught and reported as the 502 shape. -/
def akeHandler (env : Env) (body : Body) : List NetEvent × HandlerResult :=
  match selectSigScheme body.payloadHintBytes body.policyPreferredSig env.dReach env.fReach with
  | .error e => ([.probeDilithium, .probeFalcon], .err502 e)
  | .ok scheme =>
    match env.kyberBase with
    | none => ([.probeDilithium, .probeFalcon, .probeKyber], .err502 "Kyber unreachable")
    | some _ =>
      match sigBaseFor env scheme with
      | none =>
        ([.probeDilithium, .probeFalcon, .probeKyber, probeEventFor scheme],
         .err502 (scheme.name ++ " unreachable"))
      | some _ =>
        let r := akeResolved env body scheme
        (NetEvent.probeDilithium :: NetEvent.probeFalcon :: NetEvent.probeKyber ::
          probeEventFor scheme :: r.1, r.2)

/-- Concrete environment for the evaluation theorems: Dilithium reachable,
Falcon not, KEM reachable, no rotation backend, every pipeline call
succeeding, with the two sides of the round trip reporting different shared
secrets. -/
def baseEnv : Env :=
  { dReach := true
    fReach := false
    kyberBase := some "http://localhost:8080"
    dilithiumBase := some "http://localhost:8081"
    falconBase := none
    rotationBase := none
    genKeypair := .ok (respOf [("publicKey", .str "KYBER-PUBLIC-KEY-000001"),
      ("secretKey", .str "KYBER-SECRET-KEY-000001")])
    signerInfo := .ok (respOf [("signerPublicKey", .str "SIGNER-PUBLIC-KEY-000001"),
      ("level", .str "3")])
    rotCurrent1 := .error "rotation unavailable"
    rotRotate := .error "rotation unavailable"
    rotCurrent2 := .error "rotation unavailable"
    rotSign := .error "rotation unavailable"
    directSign := .ok (respOf [("signature", .str "SIG-000001")])
    bootstrap := .ok (respOf [])
    encapVerify := fun _ => .ok (respOf [("ciphertext", .str "CIPHERTEXT-01"),
      ("sharedSecret", .str "SECRET-A")])
    decapsulate := fun _ _ => .ok (respOf [("sharedSecret", .str "SECRET-B")]) }

/-- Request body carrying an explicit preference for Falcon and nothing else. -/
def prefFalconBody : Body :=
  { payloadHintBytes := .undef, policyPreferredSig := .str "falcon", level := .undef }

/-- Request body with no hint, preference or level. -/
def plainBody : Body :=
  { payloadHintBytes := .undef, policyPreferredSig := .undef, level := .undef }

/-- Environment with the KEM backend unreachable and both signature backends
reachable. -/
def kemDownEnv : Env :=
  { baseEnv with kyberBase := none, dReach := true, fReach := true }

/-- Complete signing context used by the witness statements. -/
def sampleCtx : SigCtx :=
  { source := .direct
    signature := .str "SIG-000001"
    signerPublicKey := .str "SIGNER-PUBLIC-KEY-000001"
    signerLevel := .str "3"
    signerKid := .undef
    kyberPublicKey := .str "KYBER-PUBLIC-KEY-000001"
    kyberSecretKey := .str "KYBER-SECRET-KEY-000001"
    isCompressed := .undef }

/-- Verify stub that always reports a verification failure. -/
def failVerify : SigCtx → Except String Resp :=
  fun _ => .error "signature mismatch"

/-- Incomplete signing context (no signature) used by the witness statements. -/
def incompleteCtx : SigCtx :=
  { sampleCtx with signature := .undef }

/-- Environment whose bootstrap endpoint returns a keypair of its own. -/
def bootEnv : Env :=
  { baseEnv with
    directSign := .error "sign endpoint missing"
    bootstrap := .ok (respOf [("signature", .str "BOOT-SIG-01"),
      ("kyberPublicKey", .str "BOOT-KYBER-PUBLIC-KEY-01"),
      ("kyberSecretKey", .str "BOOT-KYBER-SECRET-KEY-01")]) }

/-- Result of the round trip of `baseEnv` with `plainBody`. -/
def plainResult : AkeResult :=
  { status := "mismatch"
    schemeSelected := .dilithium
    reason := "default_or_health"
    signerLevel := .str "3"
    signerKid := .undef
    ciphertextLen := 13
    sharedSecretMatch := false }

/-- Signature-backend API calls (everything addressed to a signature backend
other than a liveness probe). -/
def isSigApiCall : NetEvent → Bool
  | .sigSignerInfo _ => true
  | .sigSign _ => true
  | .sigBootstrap _ => true
  | .sigEncapVerify _ _ => true
  | _ => false

/-- Any network traffic addressed to a signature backend, liveness probes
included. -/
def isSigBackendTraffic : NetEvent → Bool
  | .probeDilithium => true
  | .probeFalcon => true
  | .sigSignerInfo _ => true
  | .sigSign _ => true
  | .sigBootstrap _ => true
  | .sigEncapVerify _ _ => true
  | _ => false

/-- Response delivered by a fetch call: only the status code matters to the
prober. -/
structure FetchResponse where
  status : ℕ
deriving DecidableEq, Repr

/-- Field `res.ok` of a fetch response: status in the 200..299 range. -/
def respOk (r : FetchResponse) : Bool :=
  decide (200 ≤ r.status) && decide (r.status < 300)

/-- Network oracle for liveness probes: the response that a GET of the health
path of one base address delivers, `none` for a transport error, malformed
response or timeout (a timeout rejects the probe promise and is caught the
same way as a network error). -/
def ProbeNet : Type := String → Option FetchResponse

/-- Function `probe(base)` of `server.js`: false on any caught failure, else
`!!res?.ok || res?.status >= 200`. -/
def probe (net : ProbeNet) (base : String) : Bool :=
  match net base with
  | none => false
  | some r => respOk r || decide (200 ≤ r.status)

/-- Function `firstReachable(bases)` of `server.js`: probe the candidates in
order and return the first reachable one. -/
def firstReachable (net : ProbeNet) : List String → Option String
  | [] => none
  | b :: rest => if probe net b then some b else firstReachable net rest

/-- Probe oracle for the witness statements: one address answers with a 503
response, every other address is unreachable. -/
def demoNet : ProbeNet :=
  fun b => if b = "http://localhost:8081" then some ⟨503⟩ else none

/-! Theorems.  Helper lemmas come first, then one theorem per claim together
with its witness or counterexample. -/

theorem ltb_fin_fin (a b : ℚ) : JSNum.ltb (.fin a) (.fin b) = decide (a < b) := rfl

theorem leb_fin_fin (a b : ℚ) : JSNum.leb (.fin a) (.fin b) = decide (a ≤ b) := by
  by_cases h : b < a
  · simp [JSNum.leb, JSNum.ltb, h, not_le.mpr h]
  · simp [JSNum.leb, JSNum.ltb, h, not_lt.mp h]

theorem payloadHeuristic_eq (hint : JSValue) (f : Bool) :
    payloadHeuristic hint f = (payloadTightSpec hint && f) := by
  unfold payloadHeuristic payloadTightSpec jsIsNaN jsGtNum jsLeNum
  cases hn : jsToNumber hint with
  | nan => simp [JSNum.ltb, JSNum.leb]
  | inf => simp [JSNum.ltb, JSNum.leb]
  | ninf => simp [JSNum.ltb, JSNum.leb]
  | fin q =>
    rw [ltb_fin_fin, leb_fin_fin]
    by_cases h0 : 0 < q <;> by_cases h1 : q ≤ 1024 <;> simp [h0, h1]

theorem selectSigScheme_eq_spec (hint pref : JSValue) (d f : Bool) :
    selectSigScheme hint pref d f = selectSchemeSpec hint pref d f := by
  unfold selectSigScheme selectSchemeSpec selectFallbackSpec namesBackend
  rw [payloadHeuristic_eq]
  by_cases hpf : pref = JSValue.str "falcon"
  · subst hpf
    cases d <;> cases f <;> cases hps : payloadTightSpec hint <;>
      simp [schemeReachable, hps]
  · by_cases hpd : pref = JSValue.str "dilithium"
    · subst hpd
      cases d <;> cases f <;> cases hps : payloadTightSpec hint <;>
        simp [schemeReachable, hps]
    · cases d <;> cases f <;> cases hps : payloadTightSpec hint <;>
        simp [schemeReachable, hps, hpf, hpd]

theorem selectSigScheme_error_iff (hint pref : JSValue) (d f : Bool) :
    selectSigScheme hint pref d f = .error "No signature service reachable" ↔
      d = false ∧ f = false := by
  unfold selectSigScheme
  rw [payloadHeuristic_eq]
  by_cases hpf : pref = JSValue.str "falcon"
  · subst hpf
    cases d <;> cases f <;> cases hps : payloadTightSpec hint <;> simp [hps]
  · by_cases hpd : pref = JSValue.str "dilithium"
    · subst hpd
      cases d <;> cases f <;> cases hps : payloadTightSpec hint <;> simp [hps]
    · cases d <;> cases f <;> cases hps : payloadTightSpec hint <;> simp [hps, hpf, hpd]

theorem selectSigScheme_pref_ignored (hint pref : JSValue) (d f : Bool) (s : Scheme)
    (hn : namesBackend pref = some s) (hr : schemeReachable d f s = false) :
    selectSigScheme hint pref d f = selectSigScheme hint .undef d f := by
  unfold namesBackend at hn
  by_cases hpd : pref = JSValue.str "dilithium"
  · subst hpd
    rw [if_pos rfl] at hn
    injection hn with hs
    subst hs
    simp only [schemeReachable] at hr
    subst hr
    simp [selectSigScheme]
  · by_cases hpf : pref = JSValue.str "falcon"
    · subst hpf
      rw [if_neg (by decide), if_pos rfl] at hn
      injection hn with hs
      subst hs
      simp only [schemeReachable] at hr
      subst hr
      simp [selectSigScheme, hpd]
    · rw [if_neg hpd, if_neg hpf] at hn
      cases hn

/-- C1: `selectSigScheme` implements the documented decision order: a
reachable explicitly preferred backend wins; otherwise a payload hint
coercing to a finite number in (0, 1024] selects Falcon when reachable;
otherwise Dilithium if reachable, else Falcon if reachable; otherwise the
operation fails with the error `No signature service reachable`, which
happens exactly when neither signature backend is reachable.  A preference
naming an unreachable backend is silently ignored: the decision is the same
as with no preference at all. -/
theorem C1_selectScheme_decision_order (hint pref : JSValue) (d f : Bool) :
    selectSigScheme hint pref d f = selectSchemeSpec hint pref d f ∧
    (selectSigScheme hint pref d f = .error "No signature service reachable" ↔
      d = false ∧ f = false) ∧
    (∀ s, namesBackend pref = some s → schemeReachable d f s = false →
      selectSigScheme hint pref d f = selectSigScheme hint .undef d f) :=
  ⟨selectSigScheme_eq_spec hint pref d f, selectSigScheme_error_iff hint pref d f,
    fun s hn hr => selectSigScheme_pref_ignored hint pref d f s hn hr⟩

/-- Witness for C1 at a concrete input: an explicit preference for the
unreachable Falcon backend is ignored and the decision falls through to the
default rule. -/
theorem C1_selectScheme_decision_order_witness :
    namesBackend (JSValue.str "falcon") = some Scheme.falcon ∧
    schemeReachable true false Scheme.falcon = false ∧
    selectSigScheme (JSValue.num (.fin 512)) (JSValue.str "falcon") true false =
      selectSigScheme (JSValue.num (.fin 512)) JSValue.undef true false :=
  ⟨by decide, by decide,
    (C1_selectScheme_decision_order (JSValue.num (.fin 512)) (JSValue.str "falcon") true false).2.2
      Scheme.falcon (by decide) (by decide)⟩

/-- C10: a numeric string payload hint is not ignored: it coerces through
`isNaN` and the comparisons, so with no explicit preference and Falcon
reachable it selects Falcon via the payload rule, and the attached reason is
`payload_tight`.  Only hints whose numeric coercion is `NaN` or not greater
than 0 are ignored, in the sense that the decision is the same as with no
hint at all. -/
theorem C10_numeric_string_hint :
    (∀ d : Bool, selectSigScheme (.str "512") .undef d true = .ok .falcon) ∧
    akeReason (.str "512") .undef = "payload_tight" ∧
    (∀ (hint pref : JSValue) (d : Bool) (q : ℚ), jsToNumber hint = .fin q → 0 < q → q ≤ 1024 →
      namesBackend pref = none → selectSigScheme hint pref d true = .ok .falcon) ∧
    (∀ (hint pref : JSValue) (d f : Bool), jsIsNaN hint = true ∨ jsGtNum hint 0 = false →
      selectSigScheme hint pref d f = selectSigScheme .undef pref d f) := by
  refine ⟨fun d => by cases d <;> rfl, by decide, ?_, ?_⟩
  · intro hint pref d q hq h0 h1 hn
    have hps : payloadTightSpec hint = true := by
      unfold payloadTightSpec
      rw [hq]
      simp [h0, h1]
    have hd : pref ≠ JSValue.str "dilithium" := by
      intro hc
      subst hc
      simp [namesBackend] at hn
    have hf : pref ≠ JSValue.str "falcon" := by
      intro hc
      subst hc
      simp [namesBackend] at hn
    unfold selectSigScheme
    rw [payloadHeuristic_eq, hps]
    simp [hd, hf]
  · intro hint pref d f h
    have hps : payloadTightSpec hint = false := by
      unfold payloadTightSpec
      rcases h with h | h
      · unfold jsIsNaN at h
        simp only [decide_eq_true_eq] at h
        rw [h]
      · unfold jsGtNum at h
        cases hn : jsToNumber hint with
        | nan => rfl
        | inf => rfl
        | ninf => rfl
        | fin q =>
          rw [hn, ltb_fin_fin] at h
          simp only [decide_eq_false_iff_not] at h
          simp [h]
    unfold selectSigScheme
    rw [payloadHeuristic_eq, payloadHeuristic_eq, hps]
    rfl

/-- Witness for C10: the payload rule fires at the numeric string hint and a
non-positive hint is ignored. -/
theorem C10_numeric_string_hint_witness :
    (jsToNumber (JSValue.str "512") = JSNum.fin 512 ∧ (0 : ℚ) < 512 ∧ (512 : ℚ) ≤ 1024 ∧
      namesBackend JSValue.nullv = none ∧
      selectSigScheme (JSValue.str "512") JSValue.nullv false true = .ok .falcon) ∧
    (jsGtNum (JSValue.num (.fin (-3))) 0 = false ∧
      selectSigScheme (JSValue.num (.fin (-3))) (JSValue.str "x") true true =
        selectSigScheme JSValue.undef (JSValue.str "x") true true) :=
  ⟨⟨by decide, by decide, by decide, by decide,
      C10_numeric_string_hint.2.2.1 (JSValue.str "512") JSValue.nullv false 512
        (by decide) (by decide) (by decide) (by decide)⟩,
    ⟨by decide,
      C10_numeric_string_hint.2.2.2 (JSValue.num (.fin (-3))) (JSValue.str "x") true true
        (Or.inr (by decide))⟩⟩

theorem runChain_success_elim (scheme : Scheme) (verify : SigCtx → Except String Resp) :
    ∀ (l : List (List NetEvent × Except String SigCtx)) (last : Option String)
      (E : List NetEvent) (S : List SigCtx) (encap : Resp) (ctx : SigCtx),
      runChain scheme verify l last = (E, S, .success encap ctx) →
      verify ctx = .ok encap ∧ ctxComplete ctx = true ∧
        NetEvent.sigEncapVerify scheme ctx ∈ E := by
  intro l
  induction l with
  | nil =>
    intro last E S encap ctx h
    simp only [runChain, Prod.mk.injEq] at h
    exact absurd h.2.2 (by intro hc; cases hc)
  | cons a rest ih =>
    intro last E S encap ctx h
    rcases ha : a.2 with e | c
    · simp only [runChain, ha] at h
      injection h with h1 h2
      obtain ⟨hv, hc, hm⟩ := ih last _ S encap ctx (by rw [← h2])
      exact ⟨hv, hc, h1 ▸ List.mem_append_right _ hm⟩
    · by_cases hcomp : ctxComplete c
      · rcases hver : verify c with err | encap0
        · by_cases hsig : isSignatureVerificationError err
          · simp only [runChain, ha, hcomp, hver, hsig, if_true] at h
            injection h with h1 h2
            injection h2 with hS h3
            obtain ⟨hv, hc, hm⟩ := ih (some err) _ _ encap ctx (by rw [← h3])
            refine ⟨hv, hc, ?_⟩
            rw [← h1]
            exact List.mem_append_right _ hm
          · simp only [runChain, ha, hcomp, hver, hsig, if_true, if_false] at h
            injection h with h1 h2
            injection h2 with hS h3
            exact absurd h3 (by intro hc; cases hc)
        · simp only [runChain, ha, hcomp, hver, if_true] at h
          injection h with h1 h2
          injection h2 with hS h3
          injection h3 with he hx
          subst hx
          subst he
          refine ⟨hver, hcomp, ?_⟩
          rw [← h1]
          exact List.mem_append_right _ (List.mem_singleton.mpr rfl)
      · simp only [runChain, ha, hcomp, if_false] at h
        injection h with h1 h2
        obtain ⟨hv, hc, hm⟩ := ih last _ S encap ctx (by rw [← h2])
        exact ⟨hv, hc, h1 ▸ List.mem_append_right _ hm⟩

theorem runChain_exhausted_elim (scheme : Scheme) (verify : SigCtx → Except String Resp) :
    ∀ (l : List (List NetEvent × Except String SigCtx)) (last : Option String)
      (E : List NetEvent) (S : List SigCtx) (last' : Option String),
      runChain scheme verify l last = (E, S, .exhausted last') →
      ∀ p ∈ l, ∀ ctx, p.2 = .ok ctx → ctxComplete ctx = true →
        ∃ err, verify ctx = .error err ∧ isSignatureVerificationError err = true := by
  intro l
  induction l with
  | nil =>
    intro last E S last' h p hp
    cases hp
  | cons a rest ih =>
    intro last E S last' h p hp ctx hctx hcomp
    rw [List.mem_cons] at hp
    rcases ha : a.2 with e | c
    · simp only [runChain, ha] at h
      injection h with h1 h2
      rcases hp with rfl | hp
      · rw [ha] at hctx
        cases hctx
      · exact ih last _ S last' (by rw [← h2]) p hp ctx hctx hcomp
    · by_cases hcompc : ctxComplete c
      · rcases hver : verify c with err | encap0
        · by_cases hsig : isSignatureVerificationError err
          · simp only [runChain, ha, hcompc, hver, hsig, if_true] at h
            injection h with h1 h2
            injection h2 with hS h3
            rcases hp with rfl | hp
            · rw [ha] at hctx
              injection hctx with hc
              subst hc
              exact ⟨err, hver, hsig⟩
            · exact ih (some err) _ _ last' (by rw [← h3]) p hp ctx hctx hcomp
          · simp only [runChain, ha, hcompc, hver, hsig, if_true, if_false] at h
            injection h with h1 h2
            injection h2 with hS h3
            exact absurd h3 (by intro hc; cases hc)
        · simp only [runChain, ha, hcompc, hver, if_true] at h
          injection h with h1 h2
          injection h2 with hS h3
          exact absurd h3 (by intro hc; cases hc)
      · simp only [runChain, ha, hcompc, if_false] at h
        injection h with h1 h2
        rcases hp with rfl | hp
        · rw [ha] at hctx
          injection hctx with hc
          subst hc
          exact absurd hcomp (by simp [hcompc])
        · exact ih last _ S last' (by rw [← h2]) p hp ctx hctx hcomp

theorem runChain_submitted_complete (scheme : Scheme) (verify : SigCtx → Except String Resp) :
    ∀ (l : List (List NetEvent × Except String SigCtx)) (last : Option String)
      (ctx : SigCtx), ctx ∈ (runChain scheme verify l last).2.1 → ctxComplete ctx = true := by
  intro l
  induction l with
  | nil =>
    intro last ctx h
    simp [runChain] at h
  | cons a rest ih =>
    intro last ctx h
    rcases ha : a.2 with e | c
    · simp only [runChain, ha] at h
      exact ih last ctx h
    · by_cases hcompc : ctxComplete c
      · rcases hver : verify c with err | encap0
        · by_cases hsig : isSignatureVerificationError err
          · simp only [runChain, ha, hcompc, hver, hsig, if_true] at h
            rw [List.mem_cons] at h
            rcases h with rfl | h
            · exact hcompc
            · exact ih (some err) ctx h
          · simp only [runChain, ha, hcompc, hver, hsig, if_true, Bool.false_eq_true,
              if_false, List.mem_singleton] at h
            subst h
            exact hcompc
        · simp only [runChain, ha, hcompc, hver, if_true, List.mem_singleton] at h
          subst h
          exact hcompc
      · simp only [runChain, ha, hcompc, if_false] at h
        exact ih last ctx h

theorem runChain_verify_event_elim (scheme : Scheme) (verify : SigCtx → Except String Resp) :
    ∀ (l : List (List NetEvent × Except String SigCtx)) (last : Option String)
      (s : Scheme) (ctx : SigCtx), NetEvent.sigEncapVerify s ctx ∈ (runChain scheme verify l last).1 →
      (∃ p ∈ l, NetEvent.sigEncapVerify s ctx ∈ p.1) ∨
        (s = scheme ∧ ctxComplete ctx = true) := by
  intro l
  induction l with
  | nil =>
    intro last s ctx h
    simp [runChain] at h
  | cons a rest ih =>
    intro last s ctx h
    rcases ha : a.2 with e | c
    · simp only [runChain, ha] at h
      rcases List.mem_append.mp h with h | h
      · exact Or.inl ⟨a, List.mem_cons_self a rest, h⟩
      · rcases ih last s ctx h with ⟨p, hp, hm⟩ | hok
        · exact Or.inl ⟨p, List.mem_cons_of_mem a hp, hm⟩
        · exact Or.inr hok
    · by_cases hcompc : ctxComplete c
      · rcases hver : verify c with err | encap0
        · by_cases hsig : isSignatureVerificationError err
          · simp only [runChain, ha, hcompc, hver, hsig, if_true] at h
            rcases List.mem_append.mp h with h | h
            · rcases List.mem_append.mp h with h | h
              · exact Or.inl ⟨a, List.mem_cons_self a rest, h⟩
              · rw [List.mem_singleton] at h
                injection h with hs hc
                exact Or.inr ⟨hs, hc ▸ hcompc⟩
            · rcases ih (some err) s ctx h with ⟨p, hp, hm⟩ | hok
              · exact Or.inl ⟨p, List.mem_cons_of_mem a hp, hm⟩
              · exact Or.inr hok
          · simp only [runChain, ha, hcompc, hver, hsig, if_true, Bool.false_eq_true,
              if_false] at h
            rcases List.mem_append.mp h with h | h
            · exact Or.inl ⟨a, List.mem_cons_self a rest, h⟩
            · rw [List.mem_singleton] at h
              injection h with hs hc
              exact Or.inr ⟨hs, hc ▸ hcompc⟩
        · simp only [runChain, ha, hcompc, hver, if_true] at h
          rcases List.mem_append.mp h with h | h
          · exact Or.inl ⟨a, List.mem_cons_self a rest, h⟩
          · rw [List.mem_singleton] at h
            injection h with hs hc
            exact Or.inr ⟨hs, hc ▸ hcompc⟩
      · simp only [runChain, ha, hcompc, Bool.false_eq_true, if_false] at h
        rcases List.mem_append.mp h with h | h
        · exact Or.inl ⟨a, List.mem_cons_self a rest, h⟩
        · rcases ih last s ctx h with ⟨p, hp, hm⟩ | hok
          · exact Or.inl ⟨p, List.mem_cons_of_mem a hp, hm⟩
          · exact Or.inr hok

/-- C2: the strategy loop skips a strategy whose context construction fails;
a verification-specific error from the downstream call records the error and
advances to the next strategy; any other error from that call is immediately
fatal for the whole request; and when the loop reports exhaustion, every
strategy in the chain either failed to produce a context, produced an
incomplete one, or failed downstream verification with a
verification-specific error. -/
theorem C2_strategy_chain_error_policy :
    (∀ (scheme : Scheme) (verify : SigCtx → Except String Resp) (evs : List NetEvent)
        (e : String) (rest : List (List NetEvent × Except String SigCtx)) (last : Option String),
      runChain scheme verify ((evs, .error e) :: rest) last =
        (evs ++ (runChain scheme verify rest last).1, (runChain scheme verify rest last).2)) ∧
    (∀ (scheme : Scheme) (verify : SigCtx → Except String Resp) (evs : List NetEvent)
        (ctx : SigCtx) (rest : List (List NetEvent × Except String SigCtx)) (last : Option String)
        (err : String), ctxComplete ctx = true → verify ctx = .error err →
      isSignatureVerificationError err = true →
      runChain scheme verify ((evs, .ok ctx) :: rest) last =
        (evs ++ [.sigEncapVerify scheme ctx] ++ (runChain scheme verify rest (some err)).1,
         ctx :: (runChain scheme verify rest (some err)).2.1,
         (runChain scheme verify rest (some err)).2.2)) ∧
    (∀ (scheme : Scheme) (verify : SigCtx → Except String Resp) (evs : List NetEvent)
        (ctx : SigCtx) (rest : List (List NetEvent × Except String SigCtx)) (last : Option String)
        (err : String), ctxComplete ctx = true → verify ctx = .error err →
      isSignatureVerificationError err = false →
      runChain scheme verify ((evs, .ok ctx) :: rest) last =
        (evs ++ [.sigEncapVerify scheme ctx], [ctx], .fatal err)) ∧
    (∀ (scheme : Scheme) (verify : SigCtx → Except String Resp)
        (l : List (List NetEvent × Except String SigCtx)) (last : Option String)
        (E : List NetEvent) (S : List SigCtx) (last' : Option String),
      runChain scheme verify l last = (E, S, .exhausted last') →
      ∀ p ∈ l, ∀ ctx, p.2 = .ok ctx → ctxComplete ctx = true →
        ∃ err, verify ctx = .error err ∧ isSignatureVerificationError err = true) := by
  refine ⟨fun scheme verify evs e rest last => rfl, ?_, ?_, ?_⟩
  · intro scheme verify evs ctx rest last err hcomp hver hsig
    simp only [runChain, hcomp, hver, hsig, if_true]
  · intro scheme verify evs ctx rest last err hcomp hver hsig
    simp only [runChain, hcomp, hver, hsig, if_true, Bool.false_eq_true, if_false]
  · exact fun scheme verify => runChain_exhausted_elim scheme verify

/-- Witness for C2: a complete context whose verification fails with the
message `signature mismatch` is recorded and the chain advances, exhausting a
one-strategy chain with that error as the last verification error. -/
theorem C2_strategy_chain_error_policy_witness :
    ctxComplete sampleCtx = true ∧
    failVerify sampleCtx = .error "signature mismatch" ∧
    isSignatureVerificationError "signature mismatch" = true ∧
    runChain .dilithium failVerify [([], .ok sampleCtx)] none =
      ([.sigEncapVerify .dilithium sampleCtx], [sampleCtx],
        .exhausted (some "signature mismatch")) :=
  ⟨by decide, rfl, by decide,
    (C2_strategy_chain_error_policy.2.1 .dilithium failVerify [] sampleCtx [] none
      "signature mismatch" (by decide) rfl (by decide)).trans rfl⟩

theorem rotationAfterCurrent_events (env : Env) (evs : List NetEvent) (current : Resp)
    (bl bp bk pk sk : JSValue) :
    (rotationAfterCurrent env evs current bl bp bk pk sk).1 = evs ++ [.rotSign] := by
  unfold rotationAfterCurrent
  rcases h : env.rotSign with e | sr
  · rfl
  · simp only [h]
    split <;> rfl

theorem rotationStrategy_no_verify (env : Env) (bl bp bk pk sk : JSValue)
    (s : Scheme) (ctx : SigCtx) :
    NetEvent.sigEncapVerify s ctx ∉ (rotationStrategy env bl bp bk pk sk).1 := by
  unfold rotationStrategy
  rcases h1 : env.rotCurrent1 with e1 | cur
  · rcases h2 : env.rotRotate with e2 | r2
    · simp
    · rcases h3 : env.rotCurrent2 with e3 | cur2
      · simp
      · rw [rotationAfterCurrent_events]
        simp
  · rw [rotationAfterCurrent_events]
    simp

theorem directStrategy_events (env : Env) (scheme : Scheme) (bl bp bk pk sk : JSValue) :
    (directStrategy env scheme bl bp bk pk sk).1 = [.sigSign scheme] := by
  unfold directStrategy
  rcases h : env.directSign with e | sr
  · rfl
  · simp only [h]
    split <;> rfl

theorem bootstrapStrategy_events (env : Env) (scheme : Scheme) (bl bp bk pk sk : JSValue) :
    (bootstrapStrategy env scheme bl bp bk pk sk).1 = [.sigBootstrap scheme] := by
  unfold bootstrapStrategy
  rcases h : env.bootstrap with e | b
  · rfl
  · simp only [h]
    split <;> rfl

theorem strategyList_no_verify (env : Env) (scheme : Scheme) (bl bp bk pk sk : JSValue)
    (p : List NetEvent × Except String SigCtx) (hp : p ∈ strategyList env scheme bl bp bk pk sk)
    (s : Scheme) (ctx : SigCtx) : NetEvent.sigEncapVerify s ctx ∉ p.1 := by
  unfold strategyList at hp
  rcases List.mem_append.mp hp with hp | hp
  · by_cases hrot : env.rotationBase.isSome
    · simp only [hrot, if_true, List.mem_singleton] at hp
      subst hp
      exact rotationStrategy_no_verify env bl bp bk pk sk s ctx
    · simp [hrot] at hp
  · rw [List.mem_cons] at hp
    rcases hp with rfl | hp
    · rw [directStrategy_events]
      simp
    · rw [List.mem_singleton] at hp
      subst hp
      rw [bootstrapStrategy_events]
      simp

theorem akeWithSigner_verify_event_complete (env : Env) (body : Body) (scheme : Scheme)
    (pk sk : JSValue) (si : Resp) (s : Scheme) (ctx : SigCtx)
    (h : NetEvent.sigEncapVerify s ctx ∈ (akeWithSigner env body scheme pk sk si).1) :
    ctxComplete ctx = true := by
  simp only [akeWithSigner] at h
  split at h
  · rename_i heq
    rw [List.mem_cons] at h
    rcases h with h | h
    · simp at h
    · rcases runChain_verify_event_elim _ _ _ _ s ctx (by rw [heq]; exact h) with
        ⟨p, hp, hm⟩ | ⟨_, hc⟩
      · exact absurd hm (strategyList_no_verify _ _ _ _ _ _ _ p hp s ctx)
      · exact hc
  · rename_i heq
    rw [List.mem_cons] at h
    rcases h with h | h
    · simp at h
    · rcases runChain_verify_event_elim _ _ _ _ s ctx (by rw [heq]; exact h) with
        ⟨p, hp, hm⟩ | ⟨_, hc⟩
      · exact absurd hm (strategyList_no_verify _ _ _ _ _ _ _ p hp s ctx)
      · exact hc
  · rename_i heq
    split at h
    · dsimp only at h
      rcases List.mem_append.mp h with h | h
      · rw [List.mem_cons] at h
        rcases h with h | h
        · simp at h
        · rcases runChain_verify_event_elim _ _ _ _ s ctx (by rw [heq]; exact h) with
            ⟨p, hp, hm⟩ | ⟨_, hc⟩
          · exact absurd hm (strategyList_no_verify _ _ _ _ _ _ _ p hp s ctx)
          · exact hc
      · simp at h
    · dsimp only at h
      rcases List.mem_append.mp h with h | h
      · rw [List.mem_cons] at h
        rcases h with h | h
        · simp at h
        · rcases runChain_verify_event_elim _ _ _ _ s ctx (by rw [heq]; exact h) with
            ⟨p, hp, hm⟩ | ⟨_, hc⟩
          · exact absurd hm (strategyList_no_verify _ _ _ _ _ _ _ p hp s ctx)
          · exact hc
      · simp at h

theorem akeResolved_verify_event_complete (env : Env) (body : Body) (scheme : Scheme)
    (s : Scheme) (ctx : SigCtx)
    (h : NetEvent.sigEncapVerify s ctx ∈ (akeResolved env body scheme).1) :
    ctxComplete ctx = true := by
  unfold akeResolved at h
  rcases hg : env.genKeypair with e | kp
  · simp [hg] at h
  · rcases hsi : env.signerInfo with e | si
    · simp [hg, hsi] at h
    · simp only [hg, hsi, List.mem_cons] at h
      rcases h with h | h | h
      · simp at h
      · simp at h
      · exact akeWithSigner_verify_event_complete env body scheme _ _ si s ctx h

theorem akeHandler_verify_event_complete (env : Env) (body : Body) (s : Scheme) (ctx : SigCtx)
    (h : NetEvent.sigEncapVerify s ctx ∈ (akeHandler env body).1) :
    ctxComplete ctx = true := by
  unfold akeHandler at h
  rcases hsel : selectSigScheme body.payloadHintBytes body.policyPreferredSig env.dReach
      env.fReach with e | scheme
  · simp [hsel] at h
  · rcases hk : env.kyberBase with _ | kb
    · simp [hsel, hk] at h
    · rcases hs : sigBaseFor env scheme with _ | sb
      · simp only [hsel, hk, hs] at h
        cases scheme <;> simp [probeEventFor] at h
      · simp only [hsel, hk, hs, List.mem_cons] at h
        rcases h with h | h | h | h | h
        · simp at h
        · simp at h
        · simp at h
        · cases scheme <;> simp [probeEventFor] at h
        · exact akeResolved_verify_event_complete env body scheme s ctx h

/-- C6: a context missing any of the four critical fields is discarded and
the chain moves on to the next strategy without contacting the backend: the
loop step for an incomplete context is the same as skipping it, every context
submitted downstream by the loop is complete, and every verify-and-encapsulate
call recorded in any handler trace carries a complete context. -/
theorem C6_incomplete_context_discarded :
    (∀ (scheme : Scheme) (verify : SigCtx → Except String Resp) (evs : List NetEvent)
        (ctx : SigCtx) (rest : List (List NetEvent × Except String SigCtx))
        (last : Option String), ctxComplete ctx = false →
      runChain scheme verify ((evs, .ok ctx) :: rest) last =
        (evs ++ (runChain scheme verify rest last).1, (runChain scheme verify rest last).2)) ∧
    (∀ (scheme : Scheme) (verify : SigCtx → Except String Resp)
        (l : List (List NetEvent × Except String SigCtx)) (last : Option String)
        (ctx : SigCtx), ctx ∈ (runChain scheme verify l last).2.1 → ctxComplete ctx = true) ∧
    (∀ (env : Env) (body : Body) (s : Scheme) (ctx : SigCtx),
      NetEvent.sigEncapVerify s ctx ∈ (akeHandler env body).1 → ctxComplete ctx = true) := by
  refine ⟨?_, ?_, ?_⟩
  · intro scheme verify evs ctx rest last hcomp
    simp only [runChain, hcomp, Bool.false_eq_true, if_false]
  · intro scheme verify l last ctx h
    exact runChain_submitted_complete scheme verify l last ctx h
  · intro env body s ctx h
    exact akeHandler_verify_event_complete env body s ctx h

/-- Witness for C6: a context with no signature is skipped, leaving an
exhausted chain that never submitted anything downstream. -/
theorem C6_incomplete_context_discarded_witness :
    ctxComplete incompleteCtx = false ∧
    runChain .dilithium failVerify [([], .ok incompleteCtx)] none =
      ([] ++ (runChain .dilithium failVerify [] none).1,
        (runChain .dilithium failVerify [] none).2) :=
  ⟨by decide,
    C6_incomplete_context_discarded.1 .dilithium failVerify [] incompleteCtx [] none (by decide)⟩

theorem akeWithSigner_ok_elim (env : Env) (body : Body) (scheme : Scheme)
    (pk sk : JSValue) (si : Resp) (r : AkeResult)
    (h : (akeWithSigner env body scheme pk sk si).2 = .ok r) :
    ∃ (baseLevel baseKid : JSValue) (ctx : SigCtx) (encap decap : Resp),
      r = mkAkeResult scheme body baseLevel baseKid ctx encap decap ∧
      NetEvent.sigEncapVerify scheme ctx ∈ (akeWithSigner env body scheme pk sk si).1 ∧
      NetEvent.kemDecapsulate ctx.kyberSecretKey (encap "ciphertext") ∈
        (akeWithSigner env body scheme pk sk si).1 := by
  simp only [akeWithSigner] at h ⊢
  split at h
  · rename_i heq1
    dsimp only at h
    cases h
  · rename_i heq1
    dsimp only at h
    cases h
  · rename_i encap0 ctx0 heq1
    split at h
    · rename_i heq2
      dsimp only at h
      cases h
    · rename_i decap0 heq2
      dsimp only at h
      injection h with hr
      obtain ⟨hv, hcomp, hmem⟩ := runChain_success_elim _ _ _ _ _ _ _ _ heq1
      refine ⟨_, _, ctx0, encap0, decap0, hr.symm, ?_, ?_⟩
      · dsimp only
        exact List.mem_append_left _ (List.mem_cons_of_mem _ hmem)
      · dsimp only
        exact List.mem_append_right _ (List.mem_singleton.mpr rfl)

theorem akeResolved_ok_elim (env : Env) (body : Body) (scheme : Scheme) (r : AkeResult)
    (h : (akeResolved env body scheme).2 = .ok r) :
    ∃ (baseLevel baseKid : JSValue) (ctx : SigCtx) (encap decap : Resp),
      r = mkAkeResult scheme body baseLevel baseKid ctx encap decap ∧
      NetEvent.sigEncapVerify scheme ctx ∈ (akeResolved env body scheme).1 ∧
      NetEvent.kemDecapsulate ctx.kyberSecretKey (encap "ciphertext") ∈
        (akeResolved env body scheme).1 := by
  unfold akeResolved at h ⊢
  split at h
  · dsimp only at h
    cases h
  · split at h
    · dsimp only at h
      cases h
    · dsimp only at h ⊢
      obtain ⟨bl, bk, ctx, encap, decap, hr, hm1, hm2⟩ :=
        akeWithSigner_ok_elim _ _ _ _ _ _ r h
      exact ⟨bl, bk, ctx, encap, decap, hr,
        List.mem_cons_of_mem _ (List.mem_cons_of_mem _ hm1),
        List.mem_cons_of_mem _ (List.mem_cons_of_mem _ hm2)⟩

theorem akeHandler_ok_elim (env : Env) (body : Body) (tr : List NetEvent) (r : AkeResult)
    (h : akeHandler env body = (tr, .ok r)) :
    ∃ (scheme : Scheme) (baseLevel baseKid : JSValue) (ctx : SigCtx) (encap decap : Resp),
      r = mkAkeResult scheme body baseLevel baseKid ctx encap decap ∧
      NetEvent.sigEncapVerify scheme ctx ∈ tr ∧
      NetEvent.kemDecapsulate ctx.kyberSecretKey (encap "ciphertext") ∈ tr := by
  unfold akeHandler at h
  split at h
  · injection h with h1 h2
    cases h2
  · split at h
    · injection h with h1 h2
      cases h2
    · split at h
      · injection h with h1 h2
        cases h2
      · dsimp only at h
        injection h with h1 h2
        obtain ⟨bl, bk, ctx, encap, decap, hr, hm1, hm2⟩ :=
          akeResolved_ok_elim _ _ _ r h2
        refine ⟨_, bl, bk, ctx, encap, decap, hr, ?_, ?_⟩
        · rw [← h1]
          exact List.mem_cons_of_mem _ (List.mem_cons_of_mem _ (List.mem_cons_of_mem _
            (List.mem_cons_of_mem _ hm1)))
        · rw [← h1]
          exact List.mem_cons_of_mem _ (List.mem_cons_of_mem _ (List.mem_cons_of_mem _
            (List.mem_cons_of_mem _ hm2)))

/-- C3 counterexample: with the Falcon backend unreachable and an explicit
preference for falcon, the round trip succeeds with Dilithium selected by the
default rule, yet the reason field still reads `policy:falcon`.  The reason
therefore does not identify the rule that actually selected the scheme, as
the claim requires. -/
theorem C3_reason_counterexample :
    baseEnv.fReach = false ∧
    prefFalconBody.policyPreferredSig = JSValue.str "falcon" ∧
    (akeHandler baseEnv prefFalconBody).2.schemeOf = some Scheme.dilithium ∧
    (akeHandler baseEnv prefFalconBody).2.reasonOf = some "policy:falcon" :=
  ⟨rfl, rfl, by decide, by decide⟩

/-- C3 amended: the reason field of every successful result is computed from
the request fields alone, ignoring reachability and the rule that actually
fired: `policy:<stringified preference>` whenever the preference is truthy,
otherwise `payload_tight` whenever the hint is truthy and at most 1024 under
JS coercion, otherwise `default_or_health`; exactly one reason is attached. -/
theorem C3_reason_from_request_fields :
    (∀ (env : Env) (body : Body) (r : AkeResult),
      (akeHandler env body).2 = .ok r →
      r.reason = akeReason body.payloadHintBytes body.policyPreferredSig) ∧
    (∀ hint pref : JSValue,
      (truthy pref = true → akeReason hint pref = "policy:" ++ jsToString pref) ∧
      (truthy pref = false → (truthy hint && jsLeNum hint 1024) = true →
        akeReason hint pref = "payload_tight") ∧
      (truthy pref = false → (truthy hint && jsLeNum hint 1024) = false →
        akeReason hint pref = "default_or_health")) := by
  constructor
  · intro env body r h
    obtain ⟨scheme, bl, bk, ctx, encap, decap, hr, _, _⟩ :=
      akeHandler_ok_elim env body (akeHandler env body).1 r (by rw [← h])
    rw [hr]
    rfl
  · intro hint pref
    refine ⟨?_, ?_, ?_⟩
    · intro h1
      simp [akeReason, h1]
    · intro h1 h2
      simp [akeReason, h1, h2]
    · intro h1 h2
      simp [akeReason, h1, h2]

/-- Witness for the amended C3 at concrete inputs: the mismatching round trip
carries the reason computed from its request fields, and the reason cases
evaluate as stated. -/
theorem C3_reason_from_request_fields_witness :
    (akeHandler baseEnv plainBody).2 = .ok plainResult ∧
    plainResult.reason = akeReason plainBody.payloadHintBytes plainBody.policyPreferredSig ∧
    truthy JSValue.undef = false ∧
    (truthy (JSValue.num (.fin 512)) && jsLeNum (JSValue.num (.fin 512)) 1024) = true ∧
    akeReason (JSValue.num (.fin 512)) JSValue.undef = "payload_tight" :=
  ⟨by decide,
    C3_reason_from_request_fields.1 baseEnv plainBody plainResult (by decide),
    by decide, by decide,
    (C3_reason_from_request_fields.2 (JSValue.num (.fin 512)) JSValue.undef).2.1
      (by decide) (by decide)⟩

/-- C4: the shared-secret comparison of the result is exactly the JS strict
equality of the two shared-secret fields, the status is `ok` or `mismatch`
accordingly, strict equality agrees with value equality away from `NaN`
(which `JSON.parse` can never produce), and a mismatching round trip is
returned as a success-shaped result, not as the 502 error shape. -/
theorem C4_shared_secret_match :
    (∀ (scheme : Scheme) (body : Body) (bl bk : JSValue) (ctx : SigCtx) (encap decap : Resp),
      (mkAkeResult scheme body bl bk ctx encap decap).sharedSecretMatch =
        jsStrictEq (encap "sharedSecret") (decap "sharedSecret") ∧
      (mkAkeResult scheme body bl bk ctx encap decap).status =
        (if jsStrictEq (encap "sharedSecret") (decap "sharedSecret") then "ok" else "mismatch")) ∧
    (∀ a b : JSValue, a ≠ JSValue.num .nan → (jsStrictEq a b = true ↔ a = b)) ∧
    (∀ (env : Env) (body : Body) (r : AkeResult),
      (akeHandler env body).2 = .ok r →
      r.status = (if r.sharedSecretMatch then "ok" else "mismatch")) ∧
    (akeHandler baseEnv plainBody).2.statusOf = some "mismatch" := by
  refine ⟨fun scheme body bl bk ctx encap decap => ⟨rfl, rfl⟩, ?_, ?_, by decide⟩
  · intro a b ha
    unfold jsStrictEq
    by_cases hb : b = JSValue.num .nan
    · subst hb
      simp [ha]
    · simp [ha, hb]
  · intro env body r h
    obtain ⟨scheme, bl, bk, ctx, encap, decap, hr, _, _⟩ :=
      akeHandler_ok_elim env body (akeHandler env body).1 r (by rw [← h])
    rw [hr]
    rfl

/-- Witness for C4 at concrete inputs: the two distinct string secrets of the
base environment compare unequal and the round trip reports `mismatch` as a
success-shaped result. -/
theorem C4_shared_secret_match_witness :
    (jsStrictEq (JSValue.str "SECRET-A") (JSValue.str "SECRET-B") = true ↔
      JSValue.str "SECRET-A" = JSValue.str "SECRET-B") ∧
    (akeHandler baseEnv plainBody).2 = .ok plainResult ∧
    plainResult.status = (if plainResult.sharedSecretMatch then "ok" else "mismatch") :=
  ⟨C4_shared_secret_match.2.1 (JSValue.str "SECRET-A") (JSValue.str "SECRET-B") (by decide),
    by decide,
    C4_shared_secret_match.2.2.1 baseEnv plainBody plainResult (by decide)⟩

theorem rotationAfterCurrent_ok_keys (env : Env) (evs : List NetEvent) (current : Resp)
    (bl bp bk pk sk : JSValue) (evs2 : List NetEvent) (ctx : SigCtx)
    (h : rotationAfterCurrent env evs current bl bp bk pk sk = (evs2, .ok ctx)) :
    ctx.kyberPublicKey = pk ∧ ctx.kyberSecretKey = sk := by
  unfold rotationAfterCurrent at h
  split at h
  · injection h with h1 h2
    cases h2
  · split at h
    · try dsimp only at h
      split at h
      · injection h with h1 h2
        injection h2 with hc
        subst hc
        exact ⟨rfl, rfl⟩
      · injection h with h1 h2
        cases h2
    · try dsimp only at h
      split at h
      · injection h with h1 h2
        injection h2 with hc
        subst hc
        exact ⟨rfl, rfl⟩
      · injection h with h1 h2
        cases h2

/-- C5: the rotation and direct strategies carry the initially generated KEM
keypair into their contexts; the bootstrap strategy carries the bootstrap
keypair components when the bootstrap response supplies them, falling back to
the initial ones; the verify-and-encapsulate payload sends exactly the KEM
public key of its context; the chain returns the very context whose
verification succeeded; and every successful request decapsulates with the
KEM secret key of a context whose verification call is in the trace. -/
theorem C5_keypair_pairing :
    (∀ (env : Env) (bl bp bk pk sk : JSValue) (evs : List NetEvent) (ctx : SigCtx),
      rotationStrategy env bl bp bk pk sk = (evs, .ok ctx) →
      ctx.kyberPublicKey = pk ∧ ctx.kyberSecretKey = sk) ∧
    (∀ (env : Env) (scheme : Scheme) (bl bp bk pk sk : JSValue) (evs : List NetEvent)
        (ctx : SigCtx),
      directStrategy env scheme bl bp bk pk sk = (evs, .ok ctx) →
      ctx.kyberPublicKey = pk ∧ ctx.kyberSecretKey = sk) ∧
    (∀ (env : Env) (scheme : Scheme) (bl bp bk pk sk : JSValue) (evs : List NetEvent)
        (ctx : SigCtx) (b : Resp), env.bootstrap = .ok b →
      bootstrapStrategy env scheme bl bp bk pk sk = (evs, .ok ctx) →
      ctx.kyberPublicKey = jsOr (b "kyberPublicKey") pk ∧
      ctx.kyberSecretKey = jsOr (b "kyberSecretKey") sk) ∧
    (∀ (scheme : Scheme) (bl : JSValue) (ctx : SigCtx),
      (mkVerifyPayload scheme bl ctx).kyberPublicKey = ctx.kyberPublicKey) ∧
    (∀ (scheme : Scheme) (verify : SigCtx → Except String Resp)
        (l : List (List NetEvent × Except String SigCtx)) (last : Option String)
        (E : List NetEvent) (S : List SigCtx) (encap : Resp) (ctx : SigCtx),
      runChain scheme verify l last = (E, S, .success encap ctx) → verify ctx = .ok encap) ∧
    (∀ (env : Env) (body : Body) (tr : List NetEvent) (r : AkeResult),
      akeHandler env body = (tr, .ok r) →
      ∃ (scheme : Scheme) (ctx : SigCtx) (encap : Resp),
        NetEvent.sigEncapVerify scheme ctx ∈ tr ∧
        NetEvent.kemDecapsulate ctx.kyberSecretKey (encap "ciphertext") ∈ tr) := by
  refine ⟨?_, ?_, ?_, fun scheme bl ctx => rfl, ?_, ?_⟩
  · intro env bl bp bk pk sk evs ctx h
    unfold rotationStrategy at h
    split at h
    · exact rotationAfterCurrent_ok_keys _ _ _ _ _ _ _ _ _ _ h
    · split at h
      · injection h with h1 h2
        cases h2
      · split at h
        · injection h with h1 h2
          cases h2
        · exact rotationAfterCurrent_ok_keys _ _ _ _ _ _ _ _ _ _ h
  · intro env scheme bl bp bk pk sk evs ctx h
    unfold directStrategy at h
    split at h
    · injection h with h1 h2
      cases h2
    · split at h
      · dsimp only at h
        split at h
        · injection h with h1 h2
          injection h2 with hc
          subst hc
          exact ⟨rfl, rfl⟩
        · injection h with h1 h2
          cases h2
      · dsimp only at h
        split at h
        · injection h with h1 h2
          injection h2 with hc
          subst hc
          exact ⟨rfl, rfl⟩
        · injection h with h1 h2
          cases h2
  · intro env scheme bl bp bk pk sk evs ctx b hb h
    unfold bootstrapStrategy at h
    rw [hb] at h
    dsimp only at h
    split at h
    · split at h
      · injection h with h1 h2
        injection h2 with hc
        subst hc
        exact ⟨rfl, rfl⟩
      · injection h with h1 h2
        injection h2 with hc
        subst hc
        exact ⟨rfl, rfl⟩
    · injection h with h1 h2
      cases h2
  · intro scheme verify l last E S encap ctx h
    exact (runChain_success_elim scheme verify l last E S encap ctx h).1
  · intro env body tr r h
    obtain ⟨scheme, bl, bk, ctx, encap, decap, hr, hm1, hm2⟩ :=
      akeHandler_ok_elim env body tr r h
    exact ⟨scheme, ctx, encap, hm1, hm2⟩

/-- Witness for C5 at concrete inputs: the direct strategy of the base
environment carries the initial keypair, and the bootstrap strategy of the
bootstrap environment overrides it with the bootstrap keypair. -/
theorem C5_keypair_pairing_witness :
    (sampleCtx.kyberPublicKey = JSValue.str "KYBER-PUBLIC-KEY-000001" ∧
      sampleCtx.kyberSecretKey = JSValue.str "KYBER-SECRET-KEY-000001") ∧
    (∃ ctx : SigCtx,
      bootstrapStrategy bootEnv .dilithium (.str "3") (.str "SIGNER-PUBLIC-KEY-000001") .undef
          (.str "KYBER-PUBLIC-KEY-000001") (.str "KYBER-SECRET-KEY-000001") =
        ([.sigBootstrap .dilithium], .ok ctx) ∧
      ctx.kyberPublicKey = JSValue.str "BOOT-KYBER-PUBLIC-KEY-01" ∧
      ctx.kyberSecretKey = JSValue.str "BOOT-KYBER-SECRET-KEY-01") := by
  constructor
  · exact C5_keypair_pairing.2.1 baseEnv .dilithium (.str "3")
      (.str "SIGNER-PUBLIC-KEY-000001") .undef (.str "KYBER-PUBLIC-KEY-000001")
      (.str "KYBER-SECRET-KEY-000001") [.sigSign .dilithium] sampleCtx rfl
  · refine ⟨_, rfl, ?_⟩
    have h := C5_keypair_pairing.2.2.1 bootEnv .dilithium (.str "3")
      (.str "SIGNER-PUBLIC-KEY-000001") .undef (.str "KYBER-PUBLIC-KEY-000001")
      (.str "KYBER-SECRET-KEY-000001") [.sigBootstrap .dilithium] _
      (respOf [("signature", .str "BOOT-SIG-01"),
        ("kyberPublicKey", .str "BOOT-KYBER-PUBLIC-KEY-01"),
        ("kyberSecretKey", .str "BOOT-KYBER-SECRET-KEY-01")]) rfl rfl
    exact ⟨h.1.trans (by decide), h.2.trans (by decide)⟩

theorem selectSigScheme_error_msg (hint pref : JSValue) (d f : Bool) (e : String)
    (h : selectSigScheme hint pref d f = .error e) : e = "No signature service reachable" := by
  unfold selectSigScheme at h
  split at h
  · cases h
  · split at h
    · cases h
    · split at h
      · cases h
      · split at h
        · cases h
        · split at h
          · cases h
          · injection h with he
            exact he.symm

/-- C7 amended: while the KEM backend is unreachable the request fails with
the 502 shape before any signature-backend API call (signer metadata, sign,
bootstrap or verify-and-encapsulate) is issued; however, the scheme-selection
step has already probed both signature backends, so the trace does contain
health-probe traffic to the signature backends. -/
theorem C7_kem_unreachable_no_sig_api (env : Env) (body : Body)
    (hk : env.kyberBase = none) :
    (akeHandler env body =
        ([.probeDilithium, .probeFalcon], .err502 "No signature service reachable") ∨
      akeHandler env body =
        ([.probeDilithium, .probeFalcon, .probeKyber], .err502 "Kyber unreachable")) ∧
    (∀ e ∈ (akeHandler env body).1, isSigApiCall e = false) := by
  rcases hsel : selectSigScheme body.payloadHintBytes body.policyPreferredSig env.dReach
      env.fReach with e | scheme
  · have he := selectSigScheme_error_msg _ _ _ _ _ hsel
    subst he
    have hres : akeHandler env body =
        ([.probeDilithium, .probeFalcon], .err502 "No signature service reachable") := by
      unfold akeHandler
      rw [hsel]
    refine ⟨Or.inl hres, ?_⟩
    rw [hres]
    intro ev hev
    rw [List.mem_cons, List.mem_singleton] at hev
    rcases hev with rfl | rfl <;> rfl
  · have hres : akeHandler env body =
        ([.probeDilithium, .probeFalcon, .probeKyber], .err502 "Kyber unreachable") := by
      unfold akeHandler
      rw [hsel, hk]
    refine ⟨Or.inr hres, ?_⟩
    rw [hres]
    intro ev hev
    rw [List.mem_cons, List.mem_cons, List.mem_singleton] at hev
    rcases hev with rfl | rfl | rfl <;> rfl

/-- Witness for the amended C7: the KEM-down environment fails with the
Kyber-unreachable 502 after only the three probes. -/
theorem C7_kem_unreachable_no_sig_api_witness :
    kemDownEnv.kyberBase = none ∧
    (akeHandler kemDownEnv plainBody =
        ([.probeDilithium, .probeFalcon], .err502 "No signature service reachable") ∨
      akeHandler kemDownEnv plainBody =
        ([.probeDilithium, .probeFalcon, .probeKyber], .err502 "Kyber unreachable")) :=
  ⟨rfl, (C7_kem_unreachable_no_sig_api kemDownEnv plainBody rfl).1⟩

/-- C7 counterexample: in a request made while the KEM backend is
unreachable, the trace still contains a network call addressed to a signature
backend (the health probe issued by scheme selection), contradicting the
claim that no network call of any kind is made to a signature backend. -/
theorem C7_sig_probe_counterexample :
    kemDownEnv.kyberBase = none ∧
    akeHandler kemDownEnv plainBody =
      ([.probeDilithium, .probeFalcon, .probeKyber], .err502 "Kyber unreachable") ∧
    NetEvent.probeDilithium ∈ (akeHandler kemDownEnv plainBody).1 ∧
    isSigBackendTraffic NetEvent.probeDilithium = true :=
  ⟨rfl, by decide, by decide, rfl⟩

theorem digit15Head_digit (cs : List Char) (c : Char) (h : digit15Head cs = some c) :
    isDigit15 c = true := by
  cases cs with
  | nil => cases h
  | cons c0 rest =>
    simp only [digit15Head] at h
    split at h
    · injection h with hc
      subst hc
      assumption
    · cases h

theorem matchLDigit_digit (cs : List Char) (c : Char) (h : matchLDigit cs = some c) :
    isDigit15 c = true := by
  unfold matchLDigit at h
  split at h
  · exact digit15Head_digit _ _ h
  · exact digit15Head_digit _ _ h

theorem matchTail_digit (cs : List Char) (c : Char) (h : matchTail cs = some c) :
    isDigit15 c = true := by
  unfold matchTail at h
  split at h
  · split at h
    · exact matchLDigit_digit _ _ h
    · exact matchLDigit_digit _ _ h
  · cases h

theorem matchExplicit_shape :
    ∀ (cs : List Char) (base : String) (d : Char), matchExplicit cs = some (base, d) →
      (base = "falcon" ∨ base = "dilithium") ∧ isDigit15 d = true := by
  intro cs
  induction cs with
  | nil =>
    intro base d h
    cases h
  | cons c rest ih =>
    intro base d h
    unfold matchExplicit at h
    split at h
    · rename_i d0 heq
      injection h with hp
      injection hp with hb hd
      subst hb
      subst hd
      split at heq
      · exact ⟨Or.inl rfl, matchTail_digit _ _ heq⟩
      · cases heq
    · split at h
      · rename_i d0 heq
        injection h with hp
        injection hp with hb hd
        subst hb
        subst hd
        split at heq
        · exact ⟨Or.inr rfl, matchTail_digit _ _ heq⟩
        · cases heq
      · exact ih base d h

theorem firstDigit15_digit :
    ∀ (cs : List Char) (c : Char), firstDigit15 cs = some c → isDigit15 c = true := by
  intro cs
  induction cs with
  | nil =>
    intro c h
    cases h
  | cons c0 rest ih =>
    intro c h
    unfold firstDigit15 at h
    split at h
    · injection h with hc
      subst hc
      assumption
    · exact ih c h

theorem digit_toString (c : Char) (h : isDigit15 c = true) :
    ∃ lvl : ℤ, 1 ≤ lvl ∧ lvl ≤ 5 ∧ String.singleton c = toString lvl := by
  unfold isDigit15 at h
  simp only [decide_eq_true_eq] at h
  rcases h with rfl | rfl | rfl | rfl | rfl
  · exact ⟨1, by decide, by decide, by decide⟩
  · exact ⟨2, by decide, by decide, by decide⟩
  · exact ⟨3, by decide, by decide, by decide⟩
  · exact ⟨4, by decide, by decide, by decide⟩
  · exact ⟨5, by decide, by decide, by decide⟩

theorem defaultAlg_shape (scheme : Scheme) :
    ∃ (base : String) (lvl : ℤ), (base = "dilithium" ∨ base = "falcon") ∧
      1 ≤ lvl ∧ lvl ≤ 5 ∧ defaultAlg scheme = base ++ "-l" ++ toString lvl := by
  cases scheme
  · exact ⟨"dilithium", 3, Or.inl rfl, by decide, by decide, by decide⟩
  · exact ⟨"falcon", 5, Or.inr rfl, by decide, by decide, by decide⟩

/-- C8: a finite numeric level hint is rounded and clamped into 1..5 and
yields `<scheme>-l<n>`; an undefined or otherwise non-numeric non-string hint
yields the scheme default, `dilithium-l3` for Dilithium and `falcon-l5` for
Falcon; a string hint that parses neither as an explicit scheme-and-level nor
as a bare level digit also yields the default; and every derived identifier
carries a level in the supported set 1..5. -/
theorem C8_rotation_algorithm_derivation :
    (∀ (scheme : Scheme) (q : ℚ),
      deriveRotationAlgorithm scheme (.num (.fin q)) =
        scheme.name ++ "-l" ++ toString (min 5 (max 1 (jsRound q))) ∧
      1 ≤ min 5 (max 1 (jsRound q)) ∧ min 5 (max 1 (jsRound q)) ≤ 5) ∧
    (∀ scheme : Scheme, deriveRotationAlgorithm scheme .undef = defaultAlg scheme) ∧
    defaultAlg .dilithium = "dilithium-l3" ∧
    defaultAlg .falcon = "falcon-l5" ∧
    (∀ (scheme : Scheme) (hint : String),
      matchExplicit (strLower (jsTrim hint)).toList = none →
      firstDigit15 (strLower (jsTrim hint)).toList = none →
      deriveRotationAlgorithm scheme (.str hint) = defaultAlg scheme) ∧
    (∀ (scheme : Scheme) (hint : JSValue), ∃ (base : String) (lvl : ℤ),
      (base = "dilithium" ∨ base = "falcon") ∧ 1 ≤ lvl ∧ lvl ≤ 5 ∧
      deriveRotationAlgorithm scheme hint = base ++ "-l" ++ toString lvl) := by
  refine ⟨fun scheme q => ⟨rfl, by omega, by omega⟩, fun scheme => rfl, by decide, by decide,
    ?_, ?_⟩
  · intro scheme hint h1 h2
    simp only [deriveRotationAlgorithm, h1, h2]
  · intro scheme hint
    rcases hint with _ | _ | b | n | str0
    · exact defaultAlg_shape scheme
    · exact defaultAlg_shape scheme
    · exact defaultAlg_shape scheme
    · rcases n with _ | _ | _ | q
      · exact defaultAlg_shape scheme
      · exact defaultAlg_shape scheme
      · exact defaultAlg_shape scheme
      · refine ⟨scheme.name, min 5 (max 1 (jsRound q)), ?_, by omega, by omega, rfl⟩
        cases scheme
        · exact Or.inl rfl
        · exact Or.inr rfl
    · rcases hm : matchExplicit (strLower (jsTrim str0)).toList with _ | ⟨base, d⟩
      · rcases hf : firstDigit15 (strLower (jsTrim str0)).toList with _ | d
        · obtain ⟨base, lvl, hb, h1, h2, h3⟩ := defaultAlg_shape scheme
          refine ⟨base, lvl, hb, h1, h2, ?_⟩
          rw [← h3]
          simp only [deriveRotationAlgorithm, hm, hf]
        · obtain ⟨lvl, h1, h2, h3⟩ := digit_toString d (firstDigit15_digit _ _ hf)
          refine ⟨scheme.name, lvl, ?_, h1, h2, ?_⟩
          · cases scheme
            · exact Or.inl rfl
            · exact Or.inr rfl
          · simp only [deriveRotationAlgorithm, hm, hf]
            rw [h3]
      · obtain ⟨hb, hd⟩ := matchExplicit_shape _ _ _ hm
        obtain ⟨lvl, h1, h2, h3⟩ := digit_toString d hd
        refine ⟨base, lvl, ?_, h1, h2, ?_⟩
        · rcases hb with hb | hb
          · exact Or.inr hb
          · exact Or.inl hb
        · simp only [deriveRotationAlgorithm, hm]
          rw [h3]

/-- Witness for C8: the unparseable hint `weird` falls back to the Falcon
default. -/
theorem C8_rotation_algorithm_derivation_witness :
    matchExplicit (strLower (jsTrim "weird")).toList = none ∧
    firstDigit15 (strLower (jsTrim "weird")).toList = none ∧
    deriveRotationAlgorithm .falcon (.str "weird") = defaultAlg .falcon :=
  ⟨by decide, by decide,
    C8_rotation_algorithm_derivation.2.2.2.2.1 .falcon "weird" (by decide) (by decide)⟩

/-- C9: the prober reports reachable for every delivered HTTP response with a
final status code (at least 200, as the fetch API guarantees) regardless of
its value, unreachable for every transport failure, and `firstReachable`
returns the first candidate in list order whose probe succeeds, or none when
every probe fails. -/
theorem C9_probe_firstReachable :
    (∀ (net : ProbeNet) (base : String) (r : FetchResponse),
      net base = some r → 200 ≤ r.status → probe net base = true) ∧
    (∀ (net : ProbeNet) (base : String), net base = none → probe net base = false) ∧
    (∀ (net : ProbeNet) (bases : List String) (b : String),
      firstReachable net bases = some b →
      probe net b = true ∧
        ∃ pre suf, bases = pre ++ b :: suf ∧ ∀ x ∈ pre, probe net x = false) ∧
    (∀ (net : ProbeNet) (bases : List String),
      firstReachable net bases = none ↔ ∀ b ∈ bases, probe net b = false) := by
  refine ⟨?_, ?_, ?_, ?_⟩
  · intro net base r hr h2
    unfold probe
    rw [hr]
    simp [h2]
  · intro net base h
    unfold probe
    rw [h]
  · intro net bases
    induction bases with
    | nil =>
      intro b h
      cases h
    | cons hd tl ih =>
      intro b h
      unfold firstReachable at h
      by_cases hp : probe net hd
      · rw [if_pos hp] at h
        injection h with hb
        subst hb
        exact ⟨hp, [], tl, rfl, by intro x hx; cases hx⟩
      · rw [if_neg hp] at h
        obtain ⟨hpb, pre, suf, hsplit, hpre⟩ := ih b h
        refine ⟨hpb, hd :: pre, suf, by rw [hsplit]; rfl, ?_⟩
        intro x hx
        rw [List.mem_cons] at hx
        rcases hx with rfl | hx
        · simpa using hp
        · exact hpre x hx
  · intro net bases
    induction bases with
    | nil => simp [firstReachable]
    | cons hd tl ih =>
      unfold firstReachable
      by_cases hp : probe net hd
      · rw [if_pos hp]
        simp [hp]
      · rw [if_neg hp]
        rw [ih]
        constructor
        · intro hall b hb
          rw [List.mem_cons] at hb
          rcases hb with rfl | hb
          · simpa using hp
          · exact hall b hb
        · intro hall b hb
          exact hall b (List.mem_cons_of_mem hd hb)

/-- Witness for C9: a 503 response still counts as reachable and the second
candidate is returned when the first is unreachable. -/
theorem C9_probe_firstReachable_witness :
    demoNet "http://localhost:8081" = some ⟨503⟩ ∧
    (200 : ℕ) ≤ (503 : ℕ) ∧
    probe demoNet "http://localhost:8081" = true ∧
    (probe demoNet "http://localhost:8081" = true ∧
      ∃ pre suf, ["http://localhost:8080", "http://localhost:8081"] =
          pre ++ "http://localhost:8081" :: suf ∧
        ∀ x ∈ pre, probe demoNet x = false) :=
  ⟨by decide, by decide,
    C9_probe_firstReachable.1 demoNet "http://localhost:8081" ⟨503⟩ (by decide) (by decide),
    C9_probe_firstReachable.2.2.1 demoNet ["http://localhost:8080", "http://localhost:8081"]
      "http://localhost:8081" (by decide)⟩

end AutoSelector
